import Mathlib

/-!
Shallow embedding of the Nexus task-execution core and verification of the
frozen claims about it.

The embedding follows the Python source:
* `src/src/nexus/services/execution_queue.py` — `ExecutionQueue`
  (`submit_task`, `get_next_task`, `cancel_task`, `execute_task`);
* `src/src/nexus/modules/loader.py` — `ModuleLoader`
  (`load_module`, `unload_module`);
* `src/modules/executors/command_executor/module.py` — the command executor
  `Module.execute_task` (the executor the queue actually dispatches to:
  it subclasses `ExecutorModule`, defines `execute_task`, and returns the
  `"status"` keys the queue reads; the sibling `executor.py` class
  `CommandExecutor` subclasses only `BaseModule`, has no `execute_task`,
  and is never selected by `ExecutionQueue._find_executor`).

Timestamps (`datetime.now()`) are modelled as abstract `Nat` clock values
passed in explicitly.  Python dictionaries are modelled as association lists
with first-match lookup; dictionary assignment removes any previous binding.
Exceptions are modelled by explicit outcome data (`Except`-style branches),
mirroring the `try`/`except` structure of the source.
-/

namespace Nexus

/-- First-match association-list lookup, the model of Python `dict.get`. -/
def alookup {β : Type} : List (String × β) → String → Option β
  | [], _ => none
  | (k, v) :: rest, x => if k = x then some v else alookup rest x

/-- Python `dict[k] = v`: remove any previous binding of `k`, bind `k` to `v`. -/
def dinsert {β : Type} (l : List (String × β)) (k : String) (v : β) :
    List (String × β) :=
  (k, v) :: l.filter (fun p => p.1 ≠ k)

/-- Task status enum from `src/src/nexus/models.py` (`TaskStatus`). -/
inductive TaskStatus where
  | pending
  | running
  | completed
  | failed
  | cancelled
deriving DecidableEq, Repr

/-- Priority enum from `execution_queue.py` (`Priority`): the three tiers. -/
inductive Priority where
  | urgent
  | normal
  | batch
deriving DecidableEq, Repr

/-- Result dictionary returned by executors and by
`ExecutionQueue.execute_task`.  Each field models one key of the Python
dict; `none` models the key being absent (`dict.get` returning `None`). -/
structure RDict where
  status! : Option String := none
  error! : Option String := none
  exit_code! : Option Int := none
  stdout! : Option String := none
  stderr! : Option String := none
  execution_time! : Option Nat := none
  timed_out! : Option Bool := none
  completed_at! : Option Nat := none
  success! : Option Bool := none
deriving DecidableEq, Repr

/-- The task record (`TaskInfo` in `models.py`), restricted to the fields the
queue operations read or write. -/
structure QTask where
  id : String
  status : TaskStatus
  createdAt : Nat := 0
  startedAt : Option Nat := none
  completedAt : Option Nat := none
  result : Option RDict := none
  error : Option String := none
deriving DecidableEq, Repr

/-- The mutable state of an `ExecutionQueue`: the task map `self.tasks`, the
three tier lists `self.task_queues`, and the statistics counters
`self.stats` (with `by_executor` as an association list of
`executor id ↦ (completed, failed)`). -/
structure QueueState where
  tasks : List (String × QTask) := []
  urgent : List String := []
  normal : List String := []
  batch : List String := []
  totalSubmitted : Nat := 0
  totalCompleted : Nat := 0
  totalFailed : Nat := 0
  byExecutor : List (String × Nat × Nat) := []
deriving DecidableEq, Repr

/-- The tier list of a priority. -/
def tierList (s : QueueState) : Priority → List String
  | Priority.urgent => s.urgent
  | Priority.normal => s.normal
  | Priority.batch => s.batch

/-- `ExecutionQueue.submit_task` (execution_queue.py lines 108–121): store
the task, append its id to the tail of its priority's tier list, bump
`total_submitted`, return the id. -/
def submit_task (s : QueueState) (t : QTask) (p : Priority) :
    String × QueueState :=
  let s1 := { s with
    tasks := dinsert s.tasks t.id t
    totalSubmitted := s.totalSubmitted + 1 }
  match p with
  | Priority.urgent => (t.id, { s1 with urgent := s1.urgent ++ [t.id] })
  | Priority.normal => (t.id, { s1 with normal := s1.normal ++ [t.id] })
  | Priority.batch => (t.id, { s1 with batch := s1.batch ++ [t.id] })

/-- `ExecutionQueue.get_next_task` (execution_queue.py lines 123–132): scan
the tiers in the fixed order urgent, normal, batch; pop index 0 of the first
non-empty list; `none` when all three are empty. -/
def get_next_task (s : QueueState) : Option String × QueueState :=
  match s.urgent with
  | t :: rest => (some t, { s with urgent := rest })
  | [] =>
    match s.normal with
    | t :: rest => (some t, { s with normal := rest })
    | [] =>
      match s.batch with
      | t :: rest => (some t, { s with batch := rest })
      | [] => (none, s)

/-- Iterate `get_next_task` at most `n` times, collecting the dequeued ids in
order.  With `n` at least the total number of queued ids this is the complete
dispatch order of the queue. -/
def drainFuel : Nat → QueueState → List String
  | 0, _ => []
  | Nat.succ n, s =>
    match get_next_task s with
    | (none, _) => []
    | (some t, s1) => t :: drainFuel n s1

/-- The complete dispatch order produced by repeatedly calling
`get_next_task` until it returns `none`. -/
def drain (s : QueueState) : List String :=
  drainFuel (s.urgent.length + s.normal.length + s.batch.length) s

/-- The loop `for priority, queue in self.task_queues.items(): if task_id in
queue: queue.remove(task_id); break` in `cancel_task`: remove the first
occurrence of `id` from the first tier containing it (dict iteration order is
insertion order: urgent, normal, batch). -/
def removeFromTiers (s : QueueState) (id : String) : QueueState :=
  if id ∈ s.urgent then { s with urgent := s.urgent.erase id }
  else if id ∈ s.normal then { s with normal := s.normal.erase id }
  else if id ∈ s.batch then { s with batch := s.batch.erase id }
  else s

/-- Mutate the task bound to `id` in the task map (Python mutates the looked
up `TaskInfo` object in place). -/
def setTask : List (String × QTask) → String → (QTask → QTask) →
    List (String × QTask)
  | [], _, _ => []
  | (k, v) :: rest, id, f =>
    (k, if k = id then f v else v) :: setTask rest id f

/-- `ExecutionQueue.cancel_task` (execution_queue.py lines 211–232): look the
task up; absent → `False`; status `pending` → remove the id from its tier (if
present in one), set status `cancelled`, stamp `completed_at`, return `True`;
any other status → `False`. -/
def cancel_task (s : QueueState) (id : String) (now : Nat) :
    Bool × QueueState :=
  match alookup s.tasks id with
  | none => (false, s)
  | some t =>
    if t.status = TaskStatus.pending then
      let s1 := removeFromTiers s id
      (true, { s1 with
        tasks := setTask s1.tasks id (fun u =>
          { u with status := TaskStatus.cancelled, completedAt := some now }) })
    else (false, s)

/-- Outcome of `ExecutionQueue._find_executor`: either no loaded, active
executor accepts the task, or the first accepting one is found. -/
inductive FindExec where
  | noExec
  | found (execId : String)
deriving DecidableEq, Repr

/-- Outcome of the awaited call `executor.execute_task(task.to_dict())`:
either it raises an exception carrying a message, or it returns a result
dictionary. -/
inductive ExecCall where
  | raises (msg : String)
  | returns (r : RDict)
deriving DecidableEq, Repr

/-- The dictionary `{"status": "error", "error": msg}` returned by
`execute_task`'s error paths. -/
def errDict (msg : String) : RDict :=
  { status! := some "error", error! := some msg }

/-- `self.stats["by_executor"][e]["completed"/"failed"] += 1` on the
`defaultdict`: an absent key is created as `(0, 0)` first. -/
def bumpExec (l : List (String × Nat × Nat)) (e : String) (c : Bool) :
    List (String × Nat × Nat) :=
  match l with
  | [] => [(e, if c then (1, 0) else (0, 1))]
  | (k, v) :: rest =>
    if k = e then
      (k, if c then (v.1 + 1, v.2) else (v.1, v.2 + 1)) :: rest
    else (k, v) :: bumpExec rest e c

/-- The per-executor completed counter (0 when the executor has no entry). -/
def execCompleted (l : List (String × Nat × Nat)) (e : String) : Nat :=
  ((alookup l e).getD (0, 0)).1

/-- The per-executor failed counter (0 when the executor has no entry). -/
def execFailed (l : List (String × Nat × Nat)) (e : String) : Nat :=
  ((alookup l e).getD (0, 0)).2

/-- The `except Exception` branch of `execute_task` (execution_queue.py lines
173–183): mark the task failed with the exception message, stamp
`completed_at`, bump only the aggregate `total_failed` counter. -/
def failTask (s : QueueState) (task_id msg : String) (tEnd : Nat) :
    QueueState :=
  { s with
    tasks := setTask s.tasks task_id (fun u =>
      { u with status := TaskStatus.failed, error := some msg,
               completedAt := some tEnd })
    totalFailed := s.totalFailed + 1 }

/-- `ExecutionQueue.execute_task` (execution_queue.py lines 134–183).
`fe` is the outcome of `_find_executor`; `call` is the outcome of the awaited
executor call; `tStart`/`tEnd` are the two `datetime.now()` readings.  Absent
task → `{"status": "error", "error": "Task not found"}` and no state change.
Otherwise the task is marked running with `started_at` stamped, and then:
no executor → the raised `"No executor available for task type"` is caught
by the `except` branch; a raised executor exception is caught the same way;
a returned dictionary is classified by its `"status"` key. -/
def execute_task (s : QueueState) (task_id : String) (fe : FindExec)
    (call : ExecCall) (tStart tEnd : Nat) : RDict × QueueState :=
  match alookup s.tasks task_id with
  | none => (errDict "Task not found", s)
  | some _ =>
    let s0 := { s with tasks := setTask s.tasks task_id (fun u =>
      { u with status := TaskStatus.running, startedAt := some tStart }) }
    match fe with
    | FindExec.noExec =>
      let msg := "No executor available for task type"
      (errDict msg, failTask s0 task_id msg tEnd)
    | FindExec.found e =>
      match call with
      | ExecCall.raises msg => (errDict msg, failTask s0 task_id msg tEnd)
      | ExecCall.returns r =>
        if r.status! = some "success" then
          (r, { s0 with
            tasks := setTask s0.tasks task_id (fun u =>
              { u with status := TaskStatus.completed, result := some r,
                       completedAt := some tEnd })
            totalCompleted := s0.totalCompleted + 1
            byExecutor := bumpExec s0.byExecutor e true })
        else
          (r, { s0 with
            tasks := setTask s0.tasks task_id (fun u =>
              { u with status := TaskStatus.failed,
                       error := some (r.error!.getD "Unknown error"),
                       result := some r, completedAt := some tEnd })
            totalFailed := s0.totalFailed + 1
            byExecutor := bumpExec s0.byExecutor e false })

end Nexus

namespace Nexus

theorem alookup_dinsert_self {β : Type} (l : List (String × β)) (k : String)
    (v : β) : alookup (dinsert l k v) k = some v := by
  simp [dinsert, alookup]

theorem alookup_setTask_self (l : List (String × QTask)) (id : String)
    (f : QTask → QTask) :
    alookup (setTask l id f) id = (alookup l id).map f := by
  induction l with
  | nil => simp [setTask, alookup]
  | cons p rest ih =>
    obtain ⟨a, b⟩ := p
    by_cases h : a = id
    · subst h; simp [setTask, alookup]
    · simp [setTask, alookup, h, ih]

theorem alookup_setTask_other (l : List (String × QTask)) (id x : String)
    (f : QTask → QTask) (hx : x ≠ id) :
    alookup (setTask l id f) x = alookup l x := by
  induction l with
  | nil => simp [setTask, alookup]
  | cons p rest ih =>
    obtain ⟨a, b⟩ := p
    by_cases h : a = id
    · subst h
      have hax : ¬ (a = x) := fun hc => hx hc.symm
      simp [setTask, alookup, hax, ih]
    · simp [setTask, alookup, h, ih]

theorem drainFuel_eq (n : Nat) :
    ∀ s : QueueState,
      s.urgent.length + s.normal.length + s.batch.length ≤ n →
      drainFuel n s = s.urgent ++ s.normal ++ s.batch := by
  induction n with
  | zero =>
    intro s h
    have hu : s.urgent = [] := List.eq_nil_of_length_eq_zero (by omega)
    have hn : s.normal = [] := List.eq_nil_of_length_eq_zero (by omega)
    have hb : s.batch = [] := List.eq_nil_of_length_eq_zero (by omega)
    simp [drainFuel, hu, hn, hb]
  | succ n ih =>
    intro s h
    cases hu : s.urgent with
    | cons t rest =>
      have hlen : rest.length + s.normal.length + s.batch.length ≤ n := by
        rw [hu] at h; simp [List.length_cons] at h; omega
      have := ih { s with urgent := rest } (by simpa using hlen)
      simp [drainFuel, get_next_task, hu, this]
    | nil =>
      cases hn : s.normal with
      | cons t rest =>
        rw [hu, hn] at h
        simp [List.length_cons] at h
        have h2 := ih { s with urgent := [], normal := rest }
          (by simp; omega)
        simp [drainFuel, get_next_task, hu, hn]
        simpa using h2
      | nil =>
        cases hb : s.batch with
        | cons t rest =>
          rw [hu, hn, hb] at h
          simp [List.length_cons] at h
          have h2 := ih { s with urgent := [], normal := [], batch := rest }
            (by simp; omega)
          simp [drainFuel, get_next_task, hu, hn, hb]
          simpa using h2
        | nil => simp [drainFuel, get_next_task, hu, hn, hb]

theorem drain_eq (s : QueueState) :
    drain s = s.urgent ++ s.normal ++ s.batch :=
  drainFuel_eq _ s (Nat.le_refl _)

theorem removeFromTiers_tasks_stats (s : QueueState) (id : String) :
    (removeFromTiers s id).tasks = s.tasks
    ∧ (removeFromTiers s id).totalSubmitted = s.totalSubmitted
    ∧ (removeFromTiers s id).totalCompleted = s.totalCompleted
    ∧ (removeFromTiers s id).totalFailed = s.totalFailed
    ∧ (removeFromTiers s id).byExecutor = s.byExecutor := by
  unfold removeFromTiers
  split_ifs <;> exact ⟨rfl, rfl, rfl, rfl, rfl⟩

theorem removeFromTiers_not_mem (s : QueueState) (id : String)
    (h : id ∉ s.urgent ++ s.normal ++ s.batch) :
    removeFromTiers s id = s := by
  simp [List.mem_append] at h
  simp [removeFromTiers, h.1, h.2.1, h.2.2]

theorem removeFromTiers_count (s : QueueState) (id : String)
    (h : id ∈ s.urgent ++ s.normal ++ s.batch) :
    ((removeFromTiers s id).urgent ++ (removeFromTiers s id).normal
        ++ (removeFromTiers s id).batch).count id + 1
      = (s.urgent ++ s.normal ++ s.batch).count id := by
  by_cases hu : id ∈ s.urgent
  · have h1 : 0 < s.urgent.count id := List.count_pos_iff.mpr hu
    simp [removeFromTiers, hu, List.count_append, List.count_erase_self]
    omega
  · by_cases hn : id ∈ s.normal
    · have h1 : 0 < s.normal.count id := List.count_pos_iff.mpr hn
      simp [removeFromTiers, hu, hn, List.count_append,
        List.count_erase_self]
      omega
    · have hb : id ∈ s.batch := by
        simp [List.mem_append] at h; tauto
      have h1 : 0 < s.batch.count id := List.count_pos_iff.mpr hb
      simp [removeFromTiers, hu, hn, hb, List.count_append,
        List.count_erase_self]
      omega

/-- An example queue: one task queued in each tier. -/
def exQ1 : QueueState :=
  { tasks :=
      [("u1", { id := "u1", status := TaskStatus.pending }),
       ("n1", { id := "n1", status := TaskStatus.pending }),
       ("b1", { id := "b1", status := TaskStatus.pending })]
    urgent := ["u1"], normal := ["n1"], batch := ["b1"] }

/-- C1: `get_next_task` pops the head of the first non-empty tier in the
fixed order urgent, normal, batch, removing it from that tier, and returns
`none` leaving the state unchanged when all three tiers are empty.
Consequently the complete dispatch order (`drain`) is exactly
`urgent ++ normal ++ batch`: FIFO within each tier, and every queued urgent
id before every queued normal or batch id; `submit_task` appends each new id
to the tail of its tier, so within a tier earlier-submitted ids are dequeued
first. -/
theorem nextTask_strict_priority_fifo (s : QueueState) :
    (get_next_task s).1 = (s.urgent ++ s.normal ++ s.batch).head?
    ∧ drain s = s.urgent ++ s.normal ++ s.batch
    ∧ (s.urgent = [] → s.normal = [] → s.batch = [] →
        get_next_task s = (none, s))
    ∧ (∀ t rest, s.urgent = t :: rest →
        get_next_task s = (some t, { s with urgent := rest }))
    ∧ (s.urgent = [] → ∀ t rest, s.normal = t :: rest →
        get_next_task s = (some t, { s with normal := rest }))
    ∧ (s.urgent = [] → s.normal = [] → ∀ t rest, s.batch = t :: rest →
        get_next_task s = (some t, { s with batch := rest }))
    ∧ (∀ t p, tierList (submit_task s t p).2 p = tierList s p ++ [t.id]) := by
  refine ⟨?_, drain_eq s, ?_, ?_, ?_, ?_, ?_⟩
  · cases hu : s.urgent with
    | cons t rest => simp [get_next_task, hu]
    | nil =>
      cases hn : s.normal with
      | cons t rest => simp [get_next_task, hu, hn]
      | nil =>
        cases hb : s.batch with
        | cons t rest => simp [get_next_task, hu, hn, hb]
        | nil => simp [get_next_task, hu, hn, hb]
  · intro hu hn hb; simp [get_next_task, hu, hn, hb]
  · intro t rest hu; simp [get_next_task, hu]
  · intro hu t rest hn; simp [get_next_task, hu, hn]
  · intro hu hn t rest hb; simp [get_next_task, hu, hn, hb]
  · intro t p; cases p <;> simp [submit_task, tierList]

theorem nextTask_strict_priority_fifo_witness :
    get_next_task exQ1 = (some "u1", { exQ1 with urgent := [] })
    ∧ drain exQ1 = ["u1", "n1", "b1"] := by
  refine ⟨(nextTask_strict_priority_fifo exQ1).2.2.2.1 "u1" [] rfl, ?_⟩
  have h := (nextTask_strict_priority_fifo exQ1).2.1
  simpa using h

/-- The pending task used in the C2 counterexample. -/
def exTaskC2 : QTask := { id := "t1", status := TaskStatus.pending }

/-- A queue state reached through the source operations: submit a task to
the urgent tier, then dequeue it with `get_next_task`.  The task is still
`pending` (only `execute_task` moves it to `running`) but is in no tier. -/
def exStateC2 : QueueState :=
  (get_next_task (submit_task {} exTaskC2 Priority.urgent).2).2

/-- C2 counterexample: the claim states `cancel_task` returns `true` only if
the task is pending AND physically present in one of the three tier lists,
and that cancelling an already-dequeued task returns `false`.  In the state
reached by submitting and then dequeuing task `"t1"` (still pending, in no
tier), `cancel_task` nevertheless returns `true`: the code checks only
`task.status == TaskStatus.PENDING`, never tier membership. -/
theorem cancel_requires_tier_presence_cex :
    (cancel_task exStateC2 "t1" 7).1 = true
    ∧ exStateC2.urgent = [] ∧ exStateC2.normal = [] ∧ exStateC2.batch = []
    ∧ alookup exStateC2.tasks "t1" = some exTaskC2 :=
  ⟨rfl, rfl, rfl, rfl, rfl⟩

/-- C2 (amended): `cancel_task` returns `true` iff the task is present in
the task map with status `pending` — physical presence in a tier list is not
required, so a task already dequeued by `get_next_task` but not yet marked
running can still be cancelled.  On success the task's status becomes
`cancelled` with a completion time stamped, other tasks are untouched, one
occurrence of the id is removed from the first tier containing it (if any;
tiers are unchanged when the id is in no tier), and the statistics counters
are unchanged.  Cancelling an absent or non-pending task returns `false`
with no effect. -/
theorem cancel_pending_amended (s : QueueState) (id : String) (now : Nat) :
    ((cancel_task s id now).1 = true ↔
      ∃ t, alookup s.tasks id = some t ∧ t.status = TaskStatus.pending)
    ∧ (∀ t, alookup s.tasks id = some t → t.status = TaskStatus.pending →
        alookup (cancel_task s id now).2.tasks id =
          some { t with status := TaskStatus.cancelled,
                        completedAt := some now }
        ∧ (∀ x, x ≠ id →
            alookup (cancel_task s id now).2.tasks x = alookup s.tasks x)
        ∧ (id ∈ s.urgent ++ s.normal ++ s.batch →
            ((cancel_task s id now).2.urgent ++ (cancel_task s id now).2.normal
              ++ (cancel_task s id now).2.batch).count id + 1 =
            (s.urgent ++ s.normal ++ s.batch).count id)
        ∧ (id ∉ s.urgent ++ s.normal ++ s.batch →
            (cancel_task s id now).2.urgent = s.urgent
            ∧ (cancel_task s id now).2.normal = s.normal
            ∧ (cancel_task s id now).2.batch = s.batch)
        ∧ (cancel_task s id now).2.totalSubmitted = s.totalSubmitted
        ∧ (cancel_task s id now).2.totalCompleted = s.totalCompleted
        ∧ (cancel_task s id now).2.totalFailed = s.totalFailed
        ∧ (cancel_task s id now).2.byExecutor = s.byExecutor)
    ∧ (∀ t, alookup s.tasks id = some t → t.status ≠ TaskStatus.pending →
        cancel_task s id now = (false, s))
    ∧ (alookup s.tasks id = none → cancel_task s id now = (false, s)) := by
  refine ⟨?_, ?_, ?_, ?_⟩
  · constructor
    · intro htrue
      match hl : alookup s.tasks id with
      | none => simp [cancel_task, hl] at htrue
      | some t =>
        by_cases hp : t.status = TaskStatus.pending
        · exact ⟨t, rfl, hp⟩
        · simp [cancel_task, hl, hp] at htrue
    · rintro ⟨t, hl, hp⟩
      simp [cancel_task, hl, hp]
  · intro t hl hp
    obtain ⟨hT, _, _, _, hE⟩ := removeFromTiers_tasks_stats s id
    refine ⟨?_, ?_, ?_, ?_, ?_, ?_, ?_, ?_⟩
    · simp [cancel_task, hl, hp, hT, alookup_setTask_self]
    · intro x hx
      simp [cancel_task, hl, hp, hT, alookup_setTask_other _ _ _ _ hx]
    · intro hmem
      have := removeFromTiers_count s id hmem
      simpa [cancel_task, hl, hp] using this
    · intro hmem
      have := removeFromTiers_not_mem s id hmem
      simp [cancel_task, hl, hp, this]
    · simp [cancel_task, hl, hp, (removeFromTiers_tasks_stats s id).2.1]
    · simp [cancel_task, hl, hp, (removeFromTiers_tasks_stats s id).2.2.1]
    · simp [cancel_task, hl, hp, (removeFromTiers_tasks_stats s id).2.2.2.1]
    · simp [cancel_task, hl, hp, (removeFromTiers_tasks_stats s id).2.2.2.2]
  · intro t hl hp; simp [cancel_task, hl, hp]
  · intro hl; simp [cancel_task, hl]

theorem cancel_pending_amended_witness :
    (cancel_task exStateC2 "t1" 7).1 = true
    ∧ alookup (cancel_task exStateC2 "t1" 7).2.tasks "t1" =
        some { exTaskC2 with status := TaskStatus.cancelled,
                             completedAt := some 7 } := by
  refine ⟨?_, ?_⟩
  · exact (cancel_pending_amended exStateC2 "t1" 7).1.mpr
      ⟨exTaskC2, rfl, rfl⟩
  · exact ((cancel_pending_amended exStateC2 "t1" 7).2.1 exTaskC2 rfl rfl).1

/-- C10: cancelling a task id that is absent from the task map, or whose
status is not `pending`, returns `false` and leaves the entire queue state
(the task map, all three tier lists, and all counters) exactly unchanged. -/
theorem cancel_task_failure_atomic (s : QueueState) (id : String) (now : Nat)
    (h : alookup s.tasks id = none ∨
      ∀ t, alookup s.tasks id = some t → t.status ≠ TaskStatus.pending) :
    cancel_task s id now = (false, s) := by
  match hl : alookup s.tasks id with
  | none => simp [cancel_task, hl]
  | some t =>
    have hp : t.status ≠ TaskStatus.pending := by
      cases h with
      | inl h0 => rw [h0] at hl; cases hl
      | inr h0 => exact h0 t hl
    simp [cancel_task, hl, hp]

/-- A queue state whose only task is already running. -/
def exStateC10 : QueueState :=
  { tasks := [("r1", { id := "r1", status := TaskStatus.running })] }

theorem cancel_task_failure_atomic_witness :
    cancel_task exStateC10 "r1" 3 = (false, exStateC10)
    ∧ cancel_task exStateC10 "ghost" 3 = (false, exStateC10) := by
  constructor
  · exact cancel_task_failure_atomic exStateC10 "r1" 3
      (Or.inr (by intro t ht; cases ht; decide))
  · exact cancel_task_failure_atomic exStateC10 "ghost" 3 (Or.inl rfl)

theorem execCompleted_bumpExec (l : List (String × Nat × Nat)) (e : String)
    (c : Bool) :
    execCompleted (bumpExec l e c) e =
      execCompleted l e + (if c then 1 else 0)
    ∧ execFailed (bumpExec l e c) e =
      execFailed l e + (if c then 0 else 1) := by
  induction l with
  | nil => cases c <;> simp [bumpExec, execCompleted, execFailed, alookup]
  | cons p rest ih =>
    obtain ⟨k, v⟩ := p
    by_cases hk : k = e
    · subst hk
      cases c <;> simp [bumpExec, execCompleted, execFailed, alookup]
    · simpa [bumpExec, execCompleted, execFailed, alookup, hk] using ih

/-- C3: when the chosen executor's `execute_task` call raises an exception,
`ExecutionQueue.execute_task` catches it at the `except Exception` boundary:
the task is marked `failed` with the exception message as its error and a
completion time stamped, the aggregate failed counter is bumped, and the
call returns the dictionary `{"status": "error", "error": msg}` instead of
propagating.  The embedding is a total function — the exception never
escapes `execute_task`, so the worker loop (`QueueWorker.run`, which
additionally wraps the call in its own `try`/`except`) cannot be terminated
by an executor fault. -/
theorem executor_exception_caught (s : QueueState) (task_id e msg : String)
    (t : QTask) (tStart tEnd : Nat) (h : alookup s.tasks task_id = some t) :
    (execute_task s task_id (FindExec.found e) (ExecCall.raises msg)
        tStart tEnd).1 = errDict msg
    ∧ alookup (execute_task s task_id (FindExec.found e)
        (ExecCall.raises msg) tStart tEnd).2.tasks task_id =
      some { t with status := TaskStatus.failed, startedAt := some tStart,
                    error := some msg, completedAt := some tEnd }
    ∧ (execute_task s task_id (FindExec.found e) (ExecCall.raises msg)
        tStart tEnd).2.totalFailed = s.totalFailed + 1
    ∧ (execute_task s task_id (FindExec.found e) (ExecCall.raises msg)
        tStart tEnd).2.totalCompleted = s.totalCompleted
    ∧ (execute_task s task_id (FindExec.found e) (ExecCall.raises msg)
        tStart tEnd).2.byExecutor = s.byExecutor := by
  refine ⟨?_, ?_, ?_, ?_, ?_⟩ <;>
    simp [execute_task, h, failTask, alookup_setTask_self]

/-- A one-task queue used as the concrete input of the C3 and C4
witnesses. -/
def exStateRun : QueueState :=
  { tasks := [("t9", { id := "t9", status := TaskStatus.pending })] }

theorem executor_exception_caught_witness :
    (execute_task exStateRun "t9" (FindExec.found "command_executor")
        (ExecCall.raises "boom") 1 2).1 = errDict "boom"
    ∧ alookup (execute_task exStateRun "t9"
        (FindExec.found "command_executor")
        (ExecCall.raises "boom") 1 2).2.tasks "t9" =
      some { id := "t9", status := TaskStatus.failed, startedAt := some 1,
             error := some "boom", completedAt := some 2 } := by
  have h := executor_exception_caught exStateRun "t9" "command_executor"
    "boom" { id := "t9", status := TaskStatus.pending } 1 2 rfl
  exact ⟨h.1, h.2.1⟩

/-- C4: when the executor call returns a result dictionary `r`,
`ExecutionQueue.execute_task` classifies the task by `r`'s `"status"` key:
the task reaches `completed` iff that key equals `"success"`, in which case
the result is stored and the aggregate and per-executor completed counters
each increment by one; otherwise the task reaches `failed` with its error
taken from `r`'s `"error"` key (defaulting to `"Unknown error"`), the result
is still stored, and the aggregate and per-executor failed counters each
increment by one.  In both branches `completed_at` is stamped and `r` itself
is returned. -/
theorem result_classification (s : QueueState) (task_id e : String)
    (r : RDict) (t : QTask) (tStart tEnd : Nat)
    (h : alookup s.tasks task_id = some t) :
    (execute_task s task_id (FindExec.found e) (ExecCall.returns r)
        tStart tEnd).1 = r
    ∧ ((alookup (execute_task s task_id (FindExec.found e)
          (ExecCall.returns r) tStart tEnd).2.tasks task_id).map
            (fun u => u.status) = some TaskStatus.completed
        ↔ r.status! = some "success")
    ∧ (r.status! = some "success" →
        alookup (execute_task s task_id (FindExec.found e)
          (ExecCall.returns r) tStart tEnd).2.tasks task_id =
          some { t with status := TaskStatus.completed,
                        startedAt := some tStart, result := some r,
                        completedAt := some tEnd }
        ∧ (execute_task s task_id (FindExec.found e) (ExecCall.returns r)
            tStart tEnd).2.totalCompleted = s.totalCompleted + 1
        ∧ (execute_task s task_id (FindExec.found e) (ExecCall.returns r)
            tStart tEnd).2.totalFailed = s.totalFailed
        ∧ execCompleted (execute_task s task_id (FindExec.found e)
            (ExecCall.returns r) tStart tEnd).2.byExecutor e =
          execCompleted s.byExecutor e + 1
        ∧ execFailed (execute_task s task_id (FindExec.found e)
            (ExecCall.returns r) tStart tEnd).2.byExecutor e =
          execFailed s.byExecutor e)
    ∧ (r.status! ≠ some "success" →
        alookup (execute_task s task_id (FindExec.found e)
          (ExecCall.returns r) tStart tEnd).2.tasks task_id =
          some { t with status := TaskStatus.failed,
                        startedAt := some tStart,
                        error := some (r.error!.getD "Unknown error"),
                        result := some r, completedAt := some tEnd }
        ∧ (execute_task s task_id (FindExec.found e) (ExecCall.returns r)
            tStart tEnd).2.totalFailed = s.totalFailed + 1
        ∧ (execute_task s task_id (FindExec.found e) (ExecCall.returns r)
            tStart tEnd).2.totalCompleted = s.totalCompleted
        ∧ execFailed (execute_task s task_id (FindExec.found e)
            (ExecCall.returns r) tStart tEnd).2.byExecutor e =
          execFailed s.byExecutor e + 1
        ∧ execCompleted (execute_task s task_id (FindExec.found e)
            (ExecCall.returns r) tStart tEnd).2.byExecutor e =
          execCompleted s.byExecutor e) := by
  by_cases hr : r.status! = some "success"
  · refine ⟨?_, ?_, ?_, ?_⟩
    · simp [execute_task, h, hr]
    · simp [execute_task, h, hr, alookup_setTask_self]
    · intro _
      refine ⟨?_, ?_, ?_, ?_, ?_⟩ <;>
        simp [execute_task, h, hr, alookup_setTask_self,
          (execCompleted_bumpExec s.byExecutor e true).1,
          (execCompleted_bumpExec s.byExecutor e true).2]
    · intro hc; exact absurd hr hc
  · refine ⟨?_, ?_, ?_, ?_⟩
    · simp [execute_task, h, hr]
    · simp [execute_task, h, hr, alookup_setTask_self]
    · intro hc; exact absurd hc hr
    · intro _
      refine ⟨?_, ?_, ?_, ?_, ?_⟩ <;>
        simp [execute_task, h, hr, alookup_setTask_self,
          (execCompleted_bumpExec s.byExecutor e false).1,
          (execCompleted_bumpExec s.byExecutor e false).2]

theorem result_classification_witness :
    (execute_task exStateRun "t9" (FindExec.found "command_executor")
        (ExecCall.returns { status! := some "success" }) 1 2).1 =
      { status! := some "success" }
    ∧ alookup (execute_task exStateRun "t9"
        (FindExec.found "command_executor")
        (ExecCall.returns { status! := some "success" }) 1 2).2.tasks "t9" =
      some { id := "t9", status := TaskStatus.completed, startedAt := some 1,
             result := some { status! := some "success" },
             completedAt := some 2 }
    ∧ alookup (execute_task exStateRun "t9"
        (FindExec.found "command_executor")
        (ExecCall.returns { status! := some "failed",
                            error! := some "exit 1" }) 1 2).2.tasks "t9" =
      some { id := "t9", status := TaskStatus.failed, startedAt := some 1,
             result := some { status! := some "failed",
                              error! := some "exit 1" },
             completedAt := some 2, error := some "exit 1" } := by
  have h1 := result_classification exStateRun "t9" "command_executor"
    { status! := some "success" }
    { id := "t9", status := TaskStatus.pending } 1 2 rfl
  have h2 := result_classification exStateRun "t9" "command_executor"
    { status! := some "failed", error! := some "exit 1" }
    { id := "t9", status := TaskStatus.pending } 1 2 rfl
  refine ⟨h1.1, (h1.2.2.1 rfl).1, ?_⟩
  have := (h2.2.2.2 (by decide)).1
  simpa using this

/-- The keys of `self.config` read by the command executor
(`modules/executors/command_executor/module.py`).  `max_timeout` belongs to
the executor config vocabulary (the sibling `executor.py` variant reads it
in `setup`), but `module.py`'s `execute_task` never reads it. -/
structure CmdConfig where
  default_timeout_seconds : Option Nat := none
  max_timeout : Option Nat := none
  capture_output : Option Bool := none
  shell : Option Bool := none
deriving DecidableEq, Repr

/-- The keys of the task dictionary read by
`Module.execute_task` in `module.py`. -/
structure CmdTask where
  id : Option String := none
  command : Option String := none
  args : List String := []
  timeout_seconds : Option Nat := none
  working_directory : Option String := none
  environment : List (String × String) := []
  capture_output : Option Bool := none
  shell : Option Bool := none
deriving DecidableEq, Repr

/-- Behaviour of the spawned process when awaited with a given timeout:
it finishes within the timeout with a return code and captured output after
`elapsed` seconds, or it exceeds the timeout (`exitsAfterTerminate` says
whether the graceful terminate makes it exit within the 5-second grace
wait), or spawning/communication raises with a message. -/
inductive ProcOutcome where
  | finished (returncode : Int) (stdout stderr : Option String)
      (elapsed : Nat)
  | timesOut (exitsAfterTerminate : Bool)
  | spawnFails (msg : String)
deriving DecidableEq, Repr

/-- Signals the timeout handler sends to the process, in order. -/
inductive KillAct where
  | terminate
  | kill
deriving DecidableEq, Repr

/-- Observable outcome of one `Module.execute_task` call: the returned
result dictionary, the timeout value passed to `asyncio.wait_for` (none if
the code returned before awaiting the process), and the signals sent to the
process. -/
structure CmdOut where
  result : RDict
  awaitedTimeout : Option Nat := none
  killSeq : List KillAct := []
deriving DecidableEq, Repr

/-- module.py line 83:
`timeout = task.get('timeout_seconds', self.config.get('default_timeout_seconds', 300))`.
No clamping against any maximum is performed. -/
def resolveTimeout (task : CmdTask) (config : CmdConfig) : Nat :=
  task.timeout_seconds.getD (config.default_timeout_seconds.getD 300)

/-- `Module.execute_task` from
`modules/executors/command_executor/module.py` (lines 59–186).  `isActive`
is `self.is_active`; `proc` gives the process behaviour as a function of the
timeout it is awaited with; `now` stands for the `datetime.now()` reading
stamped into `completed_at` on the result paths that set it. -/
def cmdExecuteTask (isActive : Bool) (task : CmdTask) (config : CmdConfig)
    (proc : Nat → ProcOutcome) (now : Nat) : CmdOut :=
  if isActive = false then
    { result := { status! := some "error",
                  error! := some "Module is not active" } }
  else
    match task.command with
    | none =>
      { result := { status! := some "error",
                    error! := some "No command specified" } }
    | some c =>
      if c = "" then
        { result := { status! := some "error",
                      error! := some "No command specified" } }
      else
        let timeout := resolveTimeout task config
        match proc timeout with
        | ProcOutcome.finished rc out err elapsed =>
          let stdoutText := out.getD ""
          let stderrText := err.getD ""
          if rc = 0 then
            { result := { status! := some "success", exit_code! := some rc,
                          stdout! := some stdoutText,
                          stderr! := some stderrText,
                          execution_time! := some elapsed,
                          completed_at! := some now }
              awaitedTimeout := some timeout }
          else
            { result := { status! := some "failed", exit_code! := some rc,
                          stdout! := some stdoutText,
                          stderr! := some stderrText,
                          execution_time! := some elapsed,
                          error! := some ("Command exited with code "
                            ++ toString rc),
                          completed_at! := some now }
              awaitedTimeout := some timeout }
        | ProcOutcome.timesOut graceful =>
          { result := { status! := some "failed",
                        error! := some ("Command timed out after "
                          ++ toString timeout ++ " seconds"),
                        execution_time! := some timeout,
                        completed_at! := some now }
            awaitedTimeout := some timeout
            killSeq := KillAct.terminate ::
              (if graceful then [] else [KillAct.kill]) }
        | ProcOutcome.spawnFails msg =>
          { result := { status! := some "failed",
                        error! := some ("Execution error: " ++ msg),
                        completed_at! := some now }
            awaitedTimeout := some timeout }

/-- The timeout resolution the claim describes (spec §4.5 wording):
`min(task.timeout, configured max timeout)`, the configured default when the
task supplies none. -/
def effectiveTimeoutPerClaim (taskTimeout : Option Nat)
    (defaultT maxT : Nat) : Nat :=
  match taskTimeout with
  | some t => min t maxT
  | none => defaultT

/-- A command task carrying an explicit 5000-second timeout. -/
def exTaskC6 : CmdTask := { command := some "sleep", args := ["9999"],
                            timeout_seconds := some 5000 }

/-- A config with the default timeout keys the repository documents:
`default_timeout_seconds = 300` and `max_timeout = 3600`. -/
def exCfgC6 : CmdConfig := { default_timeout_seconds := some 300,
                             max_timeout := some 3600 }

/-- C6 counterexample: the claim states the process is awaited with
`min(task timeout, configured max timeout)`.  With a configured
`max_timeout` of 3600 and a task timeout of 5000, `module.py` awaits the
process with 5000 — the task value unclamped — whereas the claimed value is
`min 5000 3600 = 3600`.  The configured maximum is never read. -/
theorem timeout_clamping_cex :
    (cmdExecuteTask true exTaskC6 exCfgC6
        (fun _ => ProcOutcome.timesOut true) 0).awaitedTimeout = some 5000
    ∧ effectiveTimeoutPerClaim exTaskC6.timeout_seconds 300 3600 = 3600
    ∧ (5000 : Nat) ≠ 3600 := by
  refine ⟨rfl, rfl, by decide⟩

/-- C6 (amended): the effective timeout the process is awaited with is the
task-supplied `timeout_seconds` when present — with no maximum clamp
applied, as witnessed by the configured `max_timeout` having no effect on
the call's outcome — and otherwise the configured
`default_timeout_seconds`, itself defaulting to 300.  (The
`min(task, max)` clamp exists only in the unused `executor.py` variant.) -/
theorem timeout_resolution_amended (task : CmdTask) (config : CmdConfig)
    (proc : Nat → ProcOutcome) (now : Nat) (c : String)
    (hc : task.command = some c) (hne : c ≠ "") :
    (∀ t, task.timeout_seconds = some t →
      (cmdExecuteTask true task config proc now).awaitedTimeout = some t)
    ∧ (∀ d, task.timeout_seconds = none →
        config.default_timeout_seconds = some d →
        (cmdExecuteTask true task config proc now).awaitedTimeout = some d)
    ∧ (task.timeout_seconds = none →
        config.default_timeout_seconds = none →
        (cmdExecuteTask true task config proc now).awaitedTimeout = some 300)
    ∧ (∀ m, cmdExecuteTask true task { config with max_timeout := m } proc
        now = cmdExecuteTask true task config proc now) := by
  have hawait : ∀ cfg : CmdConfig,
      (cmdExecuteTask true task cfg proc now).awaitedTimeout =
        some (resolveTimeout task cfg) := by
    intro cfg
    cases hp : proc (resolveTimeout task cfg) with
    | finished rc out err elapsed =>
      by_cases hrc : rc = 0 <;>
        simp [cmdExecuteTask, hc, hne, hp, hrc]
    | timesOut g => simp [cmdExecuteTask, hc, hne, hp]
    | spawnFails m => simp [cmdExecuteTask, hc, hne, hp]
  refine ⟨?_, ?_, ?_, ?_⟩
  · intro t ht
    rw [hawait config]
    simp [resolveTimeout, ht]
  · intro d ht hd
    rw [hawait config]
    simp [resolveTimeout, ht, hd]
  · intro ht hd
    rw [hawait config]
    simp [resolveTimeout, ht, hd]
  · intro m
    have : resolveTimeout task { config with max_timeout := m } =
        resolveTimeout task config := rfl
    simp [cmdExecuteTask, hc, hne, this]

theorem timeout_resolution_amended_witness :
    (cmdExecuteTask true exTaskC6 exCfgC6
        (fun _ => ProcOutcome.timesOut true) 0).awaitedTimeout = some 5000
    ∧ (cmdExecuteTask true { exTaskC6 with timeout_seconds := none } exCfgC6
        (fun _ => ProcOutcome.timesOut true) 0).awaitedTimeout = some 300 := by
  constructor
  · exact (timeout_resolution_amended exTaskC6 exCfgC6
      (fun _ => ProcOutcome.timesOut true) 0 "sleep" rfl
      (by decide)).1 5000 rfl
  · exact (timeout_resolution_amended { exTaskC6 with timeout_seconds := none }
      exCfgC6 (fun _ => ProcOutcome.timesOut true) 0 "sleep" rfl
      (by decide)).2.1 300 rfl rfl

/-- The timed-out command of the C5 counterexample: 1-second timeout, a
process that outlives it and ignores the graceful terminate. -/
def exTaskC5 : CmdTask := { command := some "sleep", args := ["5"],
                            timeout_seconds := some 1 }

/-- C5 counterexample: the claim states the result of a timed-out command
reports `timed_out = true`.  `module.py`'s timeout handler
(lines 159–176) returns
`{"status": "failed", "error": ..., "execution_time": ..., "completed_at": ...}`
with NO `timed_out` key at all (that key exists only in the unused
`executor.py` variant, which in turn reports `exit_code = -1` rather than no
exit code).  The rest of the claim does hold here: terminate then
force-kill, no exit code, an error naming the timeout duration. -/
theorem timeout_result_cex :
    (cmdExecuteTask true exTaskC5 {} (fun _ => ProcOutcome.timesOut false)
        3).result.timed_out! = none
    ∧ (cmdExecuteTask true exTaskC5 {} (fun _ => ProcOutcome.timesOut false)
        3).result.exit_code! = none
    ∧ (cmdExecuteTask true exTaskC5 {} (fun _ => ProcOutcome.timesOut false)
        3).killSeq = [KillAct.terminate, KillAct.kill]
    ∧ (cmdExecuteTask true exTaskC5 {} (fun _ => ProcOutcome.timesOut false)
        3).result.error! = some "Command timed out after 1 seconds" :=
  ⟨rfl, rfl, rfl, rfl⟩

/-- C5 (amended): when the process exceeds the resolved timeout, the
executor sends a graceful terminate, waits a 5-second grace period, and
force-kills only if the process has not exited; the returned result reports
status `"failed"` — it carries no `timed_out` flag — contains no exit code,
carries an error message describing the timeout duration, and records the
timeout as the execution time. -/
theorem timeout_result_amended (task : CmdTask) (config : CmdConfig)
    (graceful : Bool) (now : Nat) (c : String)
    (hc : task.command = some c) (hne : c ≠ "") :
    (cmdExecuteTask true task config
        (fun _ => ProcOutcome.timesOut graceful) now).result.status! =
      some "failed"
    ∧ (cmdExecuteTask true task config
        (fun _ => ProcOutcome.timesOut graceful) now).result.timed_out! =
      none
    ∧ (cmdExecuteTask true task config
        (fun _ => ProcOutcome.timesOut graceful) now).result.exit_code! =
      none
    ∧ (cmdExecuteTask true task config
        (fun _ => ProcOutcome.timesOut graceful) now).result.error! =
      some ("Command timed out after "
        ++ toString (resolveTimeout task config) ++ " seconds")
    ∧ (cmdExecuteTask true task config
        (fun _ => ProcOutcome.timesOut graceful) now).result.execution_time!
      = some (resolveTimeout task config)
    ∧ (cmdExecuteTask true task config
        (fun _ => ProcOutcome.timesOut graceful) now).killSeq =
      KillAct.terminate :: (if graceful then [] else [KillAct.kill]) := by
  refine ⟨?_, ?_, ?_, ?_, ?_, ?_⟩ <;> simp [cmdExecuteTask, hc, hne]

theorem timeout_result_amended_witness :
    (cmdExecuteTask true exTaskC5 {} (fun _ => ProcOutcome.timesOut true)
        3).result.error! = some "Command timed out after 1 seconds"
    ∧ (cmdExecuteTask true exTaskC5 {} (fun _ => ProcOutcome.timesOut true)
        3).killSeq = [KillAct.terminate] := by
  have h := timeout_result_amended exTaskC5 {} true 3 "sleep" rfl (by decide)
  exact ⟨h.2.2.2.1, h.2.2.2.2.2⟩

/-- A module manifest (`ModuleManifest` in loader.py), restricted to the
fields the loader logic reads, plus two facts about the module class the
manifest's entry point designates: whether its initialization hook returns
`True` (`initOk`), and whether the class defines a `cleanup` method
(`hasCleanup`).  No module class in this repository — `BaseModule`,
`ExecutorModule`, the command executor `Module`, `CommandExecutor` — defines
`cleanup`, so `hasCleanup` is `false` for every module loadable here. -/
structure Manifest where
  deps : List String := []
  initOk : Bool := true
  hasCleanup : Bool := false
deriving DecidableEq, Repr

/-- A loaded module instance: an identity token distinguishing constructed
instances, the `is_active` flag (`False` on construction,
`BaseModule.__init__`), the manifest dependency list the instance carries
(`module.manifest.dependencies`), and whether its class has `cleanup`. -/
structure Inst where
  token : Nat
  active : Bool := false
  deps : List String := []
  hasCleanup : Bool := false
deriving DecidableEq, Repr

/-- Instrumentation events recording what `load_module` does, in order:
`inst id L` — the executor `id` is instantiated (`module_class(manifest)`)
while `L` is the list of currently loaded ids; `init id` — its
initialization hook is called; `reg id` — it is registered into
`self.loaded_modules`. -/
inductive LEvent where
  | inst (id : String) (loadedIds : List String)
  | init (id : String)
  | reg (id : String)
deriving DecidableEq, Repr

/-- The mutable state of a `ModuleLoader` (loader.py): the loaded-module
map, a counter supplying fresh instance tokens, and the event trace. -/
structure LSt where
  loaded : List (String × Inst) := []
  nextTok : Nat := 0
  events : List LEvent := []
deriving DecidableEq, Repr

/-- The dependency list `id`'s manifest declares (empty when `id` is not
among the available modules). -/
def depsOf (avail : List (String × Manifest)) (id : String) : List String :=
  ((alookup avail id).map Manifest.deps).getD []

/-- One step of the dependency loop in `load_module` (loader.py lines
80–87): `for dep in manifest.dependencies: if dep not in
self.loaded_modules: dep_module = await self.load_module(dep); if not
dep_module: return None`.  The boolean accumulator is `false` once a
dependency has failed, after which the remaining steps do nothing (the
Python loop has already returned). -/
def depStep (go : LSt → String → Option Nat × LSt) (acc : Bool × LSt)
    (d : String) : Bool × LSt :=
  match acc with
  | (false, s1) => (false, s1)
  | (true, s1) =>
    if (alookup s1.loaded d).isSome then (true, s1)
    else
      match go s1 d with
      | (none, s2) => (false, s2)
      | (some _, s2) => (true, s2)

/-- The body of `ModuleLoader.load_module` (loader.py lines 66–125), with
the recursive self-reference abstracted as `next` (`none` models exhausted
recursion fuel at the point the code would recurse).  Already loaded →
return the existing instance unchanged.  Unknown id → absent.  Otherwise
run the dependency loop; on its failure return absent without instantiating.
Then instantiate (`module_class(manifest)`, consuming a fresh token,
recording the loaded set at that moment), call the initialization hook, and
only on its success register the instance (with `is_active = False`;
`load_module` never activates anything). -/
def loadStep (avail : List (String × Manifest))
    (next : Option (LSt → String → Option Nat × LSt)) (s : LSt)
    (id : String) : Option Nat × LSt :=
  match alookup s.loaded id with
  | some i => (some i.token, s)
  | none =>
    match alookup avail id with
    | none => (none, s)
    | some m =>
      match next with
      | none => (none, s)
      | some go =>
        match m.deps.foldl (depStep go) (true, s) with
        | (false, s1) => (none, s1)
        | (true, s1) =>
          let tok := s1.nextTok
          let s2 : LSt :=
            { loaded := s1.loaded, nextTok := tok + 1,
              events := s1.events
                ++ [LEvent.inst id (s1.loaded.map Prod.fst)] }
          if m.initOk then
            (some tok,
             { loaded := (id,
                 { token := tok, active := false, deps := m.deps,
                   hasCleanup := m.hasCleanup }) :: s2.loaded,
               nextTok := s2.nextTok,
               events := s2.events ++ [LEvent.init id, LEvent.reg id] })
          else
            (none, { s2 with events := s2.events ++ [LEvent.init id] })

/-- `ModuleLoader.load_module`, with a structural fuel bound on the
recursion depth (the Python recursion is unbounded; on a cyclic manifest
graph it would not terminate, modelled here as fuel exhaustion). -/
def load_module (avail : List (String × Manifest)) :
    Nat → LSt → String → Option Nat × LSt
  | 0 => loadStep avail none
  | Nat.succ f => loadStep avail (some (load_module avail f))

/-- The scan in `unload_module` (loader.py lines 136–140): is some *other*
loaded module listing `id` among its manifest dependencies? -/
def hasDependent (loaded : List (String × Inst)) (id : String) : Bool :=
  loaded.any (fun p => p.1 != id && p.2.deps.contains id)

/-- `del self.loaded_modules[module_id]`. -/
def removeLoaded (l : List (String × Inst)) (id : String) :
    List (String × Inst) :=
  l.filter (fun p => p.1 != id)

/-- `ModuleLoader.unload_module` (loader.py lines 127–150).  Not loaded →
`True`.  Without `force`, refuse (`False`, no change) when another loaded
module depends on `id`.  Otherwise the code runs `await module.cleanup()`
inside `try`: when the module class has a `cleanup` method that succeeds,
the id is removed and `True` returned; when the class has none — the case
for every module class in this repository — the attribute access raises
`AttributeError`, the `except` branch catches it and returns `False`
without removing anything. -/
def unload_module (s : LSt) (id : String) (force : Bool) : Bool × LSt :=
  match alookup s.loaded id with
  | none => (true, s)
  | some i =>
    if force = false && hasDependent s.loaded id then (false, s)
    else if i.hasCleanup then
      (true, { s with loaded := removeLoaded s.loaded id })
    else (false, s)

/-- Set the `is_active` flag of a loaded module (`BaseModule.activate`,
base.py lines 54–59).  Called by `load_module`'s callers (e.g.
`ExecutionQueue._load_default_executors`), never by `load_module` itself. -/
def setActive : List (String × Inst) → String → List (String × Inst)
  | [], _ => []
  | (k, v) :: rest, id =>
    (k, if k = id then { v with active := true } else v) :: setActive rest id

/-- `await module.activate()` on a loaded module. -/
def activateModule (s : LSt) (id : String) : LSt :=
  { s with loaded := setActive s.loaded id }

/-- Domain monotonicity of the loaded-module map between two loader
states. -/
def Mono (a b : LSt) : Prop :=
  ∀ x, (alookup a.loaded x).isSome = true → (alookup b.loaded x).isSome = true

/-- Every instantiation event in the trace fragment `δ` happened with all
of the instantiated module's declared dependencies already loaded, and with
a loaded-set snapshot that stays loaded in the later state `b`. -/
def InstOkFrom (avail : List (String × Manifest)) (δ : List LEvent)
    (b : LSt) : Prop :=
  ∀ j L, LEvent.inst j L ∈ δ →
    (∀ d ∈ depsOf avail j, d ∈ L)
    ∧ ∀ x ∈ L, (alookup b.loaded x).isSome = true

/-- `b` is reachable from `a` by loader work: the loaded set only grows,
and the event trace is extended by a fragment all of whose instantiation
events respect dependency order. -/
def Evolves (avail : List (String × Manifest)) (a b : LSt) : Prop :=
  Mono a b ∧ ∃ δ, b.events = a.events ++ δ ∧ InstOkFrom avail δ b

theorem evolves_refl (avail : List (String × Manifest)) (a : LSt) :
    Evolves avail a a :=
  ⟨fun _ h => h, [], by simp, by intro j L h; cases h⟩

theorem evolves_trans (avail : List (String × Manifest)) {a b c : LSt}
    (h1 : Evolves avail a b) (h2 : Evolves avail b c) :
    Evolves avail a c := by
  obtain ⟨m1, δ1, he1, hi1⟩ := h1
  obtain ⟨m2, δ2, he2, hi2⟩ := h2
  refine ⟨fun x hx => m2 x (m1 x hx), δ1 ++ δ2,
    by rw [he2, he1, List.append_assoc], ?_⟩
  intro j L hmem
  rcases List.mem_append.mp hmem with h | h
  · obtain ⟨hd, hs⟩ := hi1 j L h
    exact ⟨hd, fun x hx => m2 x (hs x hx)⟩
  · exact hi2 j L h

theorem alookup_isSome_cons {β : Type} (l : List (String × β)) (k x : String)
    (v : β) (h : (alookup l x).isSome = true) :
    (alookup ((k, v) :: l) x).isSome = true := by
  by_cases hk : k = x <;> simp [alookup, hk, h]

theorem mem_map_fst_of_alookup_isSome {β : Type} (l : List (String × β))
    (x : String) (h : (alookup l x).isSome = true) :
    x ∈ l.map Prod.fst := by
  induction l with
  | nil => simp [alookup] at h
  | cons p rest ih =>
    obtain ⟨k, v⟩ := p
    by_cases hk : k = x
    · simp [hk]
    · simp [alookup, hk] at h
      simp [ih h]

theorem alookup_isSome_of_mem_map_fst {β : Type} (l : List (String × β))
    (x : String) (h : x ∈ l.map Prod.fst) :
    (alookup l x).isSome = true := by
  induction l with
  | nil => simp at h
  | cons p rest ih =>
    obtain ⟨k, v⟩ := p
    by_cases hk : k = x
    · simp [alookup, hk]
    · have hx : x ∈ rest.map Prod.fst := by
        rcases List.mem_map.mp h with ⟨q, hq, hfst⟩
        rcases List.mem_cons.mp hq with rfl | hq2
        · exact absurd hfst hk
        · exact List.mem_map.mpr ⟨q, hq2, hfst⟩
      simp [alookup, hk, ih hx]

theorem depFold_false (go : LSt → String → Option Nat × LSt) :
    ∀ (ds : List String) (s : LSt),
      ds.foldl (depStep go) (false, s) = (false, s) := by
  intro ds
  induction ds with
  | nil => intro s; rfl
  | cons d rest ih =>
    intro s
    rw [List.foldl_cons]
    exact ih s

theorem depFold_inv (avail : List (String × Manifest))
    (go : LSt → String → Option Nat × LSt)
    (hgo : ∀ s id, Evolves avail s (go s id).2
      ∧ (∀ tok, (go s id).1 = some tok →
          ∃ i, alookup (go s id).2.loaded id = some i ∧ i.token = tok)) :
    ∀ (ds : List String) (s : LSt),
      Evolves avail s (ds.foldl (depStep go) (true, s)).2
      ∧ ((ds.foldl (depStep go) (true, s)).1 = true →
          ∀ d ∈ ds,
            (alookup (ds.foldl (depStep go) (true, s)).2.loaded d).isSome
              = true) := by
  intro ds
  induction ds with
  | nil =>
    intro s
    exact ⟨evolves_refl avail s, by simp⟩
  | cons d rest ih =>
    intro s
    rw [List.foldl_cons]
    by_cases hl : (alookup s.loaded d).isSome = true
    · have hstep : depStep go (true, s) d = (true, s) := by
        simp [depStep, hl]
      rw [hstep]
      obtain ⟨he, hall⟩ := ih s
      refine ⟨he, ?_⟩
      intro htrue d2 hd2
      rcases List.mem_cons.mp hd2 with rfl | hmem
      · exact he.1 _ hl
      · exact hall htrue d2 hmem
    · cases hcall : go s d with
      | mk r s2 =>
        have he1 : Evolves avail s s2 := by
          have h0 := (hgo s d).1
          rw [hcall] at h0
          exact h0
        cases r with
        | none =>
          have hstep : depStep go (true, s) d = (false, s2) := by
            simp [depStep, hl, hcall]
          rw [hstep, depFold_false go rest s2]
          exact ⟨he1, by simp⟩
        | some tok =>
          have hstep : depStep go (true, s) d = (true, s2) := by
            simp [depStep, hl, hcall]
          rw [hstep]
          obtain ⟨he2, hall⟩ := ih s2
          have hreg : (alookup s2.loaded d).isSome = true := by
            have h0 := (hgo s d).2 tok
            rw [hcall] at h0
            obtain ⟨i, hi, _⟩ := h0 rfl
            simp [hi]
          refine ⟨evolves_trans avail he1 he2, ?_⟩
          intro htrue d2 hd2
          rcases List.mem_cons.mp hd2 with rfl | hmem
          · exact he2.1 _ hreg
          · exact hall htrue d2 hmem

/-- The inductive invariant of `load_module`: every call evolves the state
(loaded set grows, trace extends with dependency-respecting instantiation
events); a successful call leaves the requested id registered under the
returned token; and a successful fresh load leaves every declared
dependency loaded. -/
def LoadInv (avail : List (String × Manifest))
    (go : LSt → String → Option Nat × LSt) : Prop :=
  ∀ s id,
    Evolves avail s (go s id).2
    ∧ (∀ tok, (go s id).1 = some tok →
        ∃ i, alookup (go s id).2.loaded id = some i ∧ i.token = tok)
    ∧ (alookup s.loaded id = none →
        ∀ tok, (go s id).1 = some tok →
        ∀ d ∈ depsOf avail id,
          (alookup (go s id).2.loaded d).isSome = true)

theorem loadStep_inv (avail : List (String × Manifest))
    (next : Option (LSt → String → Option Nat × LSt))
    (hnext : ∀ go, next = some go → LoadInv avail go) :
    LoadInv avail (loadStep avail next) := by
  intro s id
  match h1 : alookup s.loaded id with
  | some i =>
    have hres : loadStep avail next s id = (some i.token, s) := by
      simp [loadStep, h1]
    rw [hres]
    refine ⟨evolves_refl avail s, ?_, ?_⟩
    · intro tok htok
      exact ⟨i, h1, by simpa using htok⟩
    · intro hnone
      cases hnone
  | none =>
    match h2 : alookup avail id with
    | none =>
      have hres : loadStep avail next s id = (none, s) := by
        simp [loadStep, h1, h2]
      rw [hres]
      refine ⟨evolves_refl avail s, ?_, ?_⟩
      · intro tok htok; cases htok
      · intro _ tok htok; cases htok
    | some m =>
      match hn : next with
      | none =>
        have hres : loadStep avail none s id = (none, s) := by
          simp [loadStep, h1, h2]
        rw [hres]
        refine ⟨evolves_refl avail s, ?_, ?_⟩
        · intro tok htok; cases htok
        · intro _ tok htok; cases htok
      | some go =>
        have hgo := hnext go rfl
        obtain ⟨hfe, hfall⟩ := depFold_inv avail go
          (fun s3 id3 => ⟨(hgo s3 id3).1, (hgo s3 id3).2.1⟩) m.deps s
        cases hd : m.deps.foldl (depStep go) (true, s) with
        | mk b s1 =>
          rw [hd] at hfe hfall
          cases b with
          | false =>
            have hres : loadStep avail (some go) s id = (none, s1) := by
              simp [loadStep, h1, h2, hd]
            rw [hres]
            refine ⟨hfe, ?_, ?_⟩
            · intro tok htok; cases htok
            · intro _ tok htok; cases htok
          | true =>
            have hdeps : ∀ d ∈ m.deps,
                (alookup s1.loaded d).isSome = true := hfall rfl
            have hdepsOf : depsOf avail id = m.deps := by
              simp [depsOf, h2]
            cases hinit : m.initOk with
            | true =>
              have hres : loadStep avail (some go) s id =
                  (some s1.nextTok,
                   { loaded := (id,
                       { token := s1.nextTok, active := false,
                         deps := m.deps, hasCleanup := m.hasCleanup })
                       :: s1.loaded,
                     nextTok := s1.nextTok + 1,
                     events := (s1.events
                       ++ [LEvent.inst id (s1.loaded.map Prod.fst)])
                       ++ [LEvent.init id, LEvent.reg id] }) := by
                simp [loadStep, h1, h2, hd, hinit]
              rw [hres]
              obtain ⟨hm1, δ1, he1, hi1⟩ := hfe
              refine ⟨⟨?_, ?_⟩, ?_, ?_⟩
              · intro x hx
                exact alookup_isSome_cons _ _ _ _ (hm1 x hx)
              · refine ⟨δ1 ++ [LEvent.inst id (s1.loaded.map Prod.fst),
                  LEvent.init id, LEvent.reg id], ?_, ?_⟩
                · simp [show s1.events = s.events ++ δ1 from he1,
                    List.append_assoc]
                · intro j L hmem
                  rcases List.mem_append.mp hmem with hm | hm
                  · obtain ⟨hdj, hsj⟩ := hi1 j L hm
                    exact ⟨hdj, fun x hx =>
                      alookup_isSome_cons _ _ _ _ (hsj x hx)⟩
                  · rcases List.mem_cons.mp hm with heq | hm2
                    · cases heq
                      refine ⟨?_, ?_⟩
                      · intro d hdm
                        rw [hdepsOf] at hdm
                        exact mem_map_fst_of_alookup_isSome _ _
                          (hdeps d hdm)
                      · intro x hx
                        exact alookup_isSome_cons _ _ _ _
                          (alookup_isSome_of_mem_map_fst _ _ hx)
                    · rcases List.mem_cons.mp hm2 with heq | hm3
                      · cases heq
                      · rcases List.mem_cons.mp hm3 with heq | hm4
                        · cases heq
                        · cases hm4
              · intro tok htok
                exact ⟨⟨s1.nextTok, false, m.deps, m.hasCleanup⟩,
                  by simp [alookup], by simpa using htok⟩
              · intro _ tok _ d hdm
                rw [hdepsOf] at hdm
                exact alookup_isSome_cons _ _ _ _ (hdeps d hdm)
            | false =>
              have hres : loadStep avail (some go) s id =
                  (none,
                   { loaded := s1.loaded,
                     nextTok := s1.nextTok + 1,
                     events := (s1.events
                       ++ [LEvent.inst id (s1.loaded.map Prod.fst)])
                       ++ [LEvent.init id] }) := by
                simp [loadStep, h1, h2, hd, hinit]
              rw [hres]
              obtain ⟨hm1, δ1, he1, hi1⟩ := hfe
              refine ⟨⟨?_, ?_⟩, ?_, ?_⟩
              · intro x hx
                exact hm1 x hx
              · refine ⟨δ1 ++ [LEvent.inst id (s1.loaded.map Prod.fst),
                  LEvent.init id], ?_, ?_⟩
                · simp [show s1.events = s.events ++ δ1 from he1,
                    List.append_assoc]
                · intro j L hmem
                  rcases List.mem_append.mp hmem with hm | hm
                  · exact hi1 j L hm
                  · rcases List.mem_cons.mp hm with heq | hm2
                    · cases heq
                      refine ⟨?_, ?_⟩
                      · intro d hdm
                        rw [hdepsOf] at hdm
                        exact mem_map_fst_of_alookup_isSome _ _
                          (hdeps d hdm)
                      · intro x hx
                        exact alookup_isSome_of_mem_map_fst _ _ hx
                    · rcases List.mem_cons.mp hm2 with heq | hm3
                      · cases heq
                      · cases hm3
              · intro tok htok; cases htok
              · intro _ tok htok; cases htok

theorem load_inv (avail : List (String × Manifest)) :
    ∀ fuel, LoadInv avail (load_module avail fuel) := by
  intro fuel
  induction fuel with
  | zero => exact loadStep_inv avail none (fun go h => by cases h)
  | succ f ih =>
    exact loadStep_inv avail (some (load_module avail f))
      (fun go h => by cases h; exact ih)

/-- C7: loading an id already present in the loaded set returns exactly the
existing instance and leaves the loader state completely unchanged — in
particular the event trace gains no instantiation or initialization event
and the fresh-token counter does not move, so no new instance is
constructed and no initialization hook runs.  Consequently loading the same
id twice yields the same instance: a successful load registers the id under
the returned token, and any later load returns that same token with no
state change. -/
theorem load_module_idempotent (avail : List (String × Manifest))
    (fuel fuel2 : Nat) (s : LSt) (id : String) :
    (∀ i, alookup s.loaded id = some i →
      load_module avail fuel s id = (some i.token, s))
    ∧ (∀ tok s2, load_module avail fuel s id = (some tok, s2) →
        load_module avail fuel2 s2 id = (some tok, s2)) := by
  constructor
  · intro i hi
    cases fuel with
    | zero => simp [load_module, loadStep, hi]
    | succ f => simp [load_module, loadStep, hi]
  · intro tok s2 hload
    have hreg := ((load_inv avail fuel) s id).2.1 tok (by rw [hload])
    rw [hload] at hreg
    obtain ⟨i, hi, htok⟩ := hreg
    have hre : load_module avail fuel2 s2 id = (some i.token, s2) := by
      cases fuel2 with
      | zero => simp [load_module, loadStep, hi]
      | succ f => simp [load_module, loadStep, hi]
    rw [hre, htok]

/-- The available-module table holding just the command executor, as
`scan_modules` builds it for this repository's modules directory. -/
def exAvailC7 : List (String × Manifest) := [("command_executor", {})]

/-- The loader state after the command executor has been loaded once. -/
def exLoadedStateC7 : LSt :=
  { loaded := [("command_executor",
      { token := 0, active := false, deps := [], hasCleanup := false })],
    nextTok := 1,
    events := [LEvent.inst "command_executor" [],
               LEvent.init "command_executor",
               LEvent.reg "command_executor"] }

theorem load_module_idempotent_witness :
    load_module exAvailC7 1 {} "command_executor" =
      (some 0, exLoadedStateC7)
    ∧ load_module exAvailC7 3 exLoadedStateC7 "command_executor" =
      (some 0, exLoadedStateC7)
    ∧ load_module exAvailC7 5 exLoadedStateC7 "command_executor" =
      (some 0, exLoadedStateC7) := by
  have h1 : load_module exAvailC7 1 {} "command_executor" =
      (some 0, exLoadedStateC7) := rfl
  refine ⟨h1, ?_, ?_⟩
  · exact (load_module_idempotent exAvailC7 1 3 {} "command_executor").2
      0 exLoadedStateC7 h1
  · exact (load_module_idempotent exAvailC7 5 0 exLoadedStateC7
      "command_executor").1
      { token := 0, active := false, deps := [], hasCleanup := false } rfl

/-- C9 (amended): `load_module` never instantiates an executor before every
declared dependency of that executor is loaded — each dependency not yet
loaded is recursively loaded (and registered) first, depth-first — and when
some dependency cannot be loaded, the call returns an absent result without
ever instantiating the requested executor.  (The original claim also
required dependencies to be *activated* before instantiation;
`load_module` registers every module with `is_active = False` and never
activates anything — see the counterexample.)  Every instantiation event in
the trace carries the loaded set at that moment, which contains all of the
instantiated module's declared dependencies and survives into the final
state. -/
theorem load_dependencies_first (avail : List (String × Manifest))
    (fuel : Nat) (s : LSt) (id : String) (r : Option Nat) (s2 : LSt)
    (h : load_module avail fuel s id = (r, s2)) :
    ∃ δ, s2.events = s.events ++ δ
      ∧ (∀ j L, LEvent.inst j L ∈ δ →
          (∀ d ∈ depsOf avail j, d ∈ L)
          ∧ ∀ x ∈ L, (alookup s2.loaded x).isSome = true)
      ∧ (alookup s.loaded id = none →
          (∃ d ∈ depsOf avail id, (alookup s2.loaded d).isSome = false) →
          r = none ∧ ∀ L, LEvent.inst id L ∉ δ) := by
  have hinv := (load_inv avail fuel) s id
  rw [h] at hinv
  obtain ⟨⟨hm, δ, he, hio⟩, hreg, hfresh⟩ := hinv
  refine ⟨δ, he, hio, ?_⟩
  rintro hnone ⟨d, hd, hnot⟩
  constructor
  · cases r with
    | none => rfl
    | some tok =>
      have hl := hfresh hnone tok rfl d hd
      rw [hl] at hnot
      cases hnot
  · intro L hmem
    obtain ⟨hdeps, hsnap⟩ := hio id L hmem
    have hl := hsnap d (hdeps d hd)
    rw [hl] at hnot
    cases hnot

/-- An available set where `A` declares a dependency `B` that is not
available: loading `A` must fail without instantiating `A`. -/
def exAvailC9b : List (String × Manifest) := [("A", { deps := ["B"] })]

theorem load_dependencies_first_witness :
    load_module exAvailC9b 2 {} "A" = (none, ({} : LSt))
    ∧ ∀ L, LEvent.inst "A" L ∉ (({} : LSt)).events := by
  refine ⟨rfl, ?_⟩
  obtain ⟨δ, he, _, himp⟩ :=
    load_dependencies_first exAvailC9b 2 {} "A" none {} rfl
  have hδ : δ = [] := by simpa using he.symm
  subst hδ
  have h2 := himp rfl ⟨"B", by simp [depsOf, exAvailC9b, alookup], rfl⟩
  exact h2.2

/-- Available set where `A` depends on `B` and both are present. -/
def exAvailC9 : List (String × Manifest) :=
  [("A", { deps := ["B"] }), ("B", {})]

/-- C9 counterexample: the claim requires every declared dependency to be
loaded *and activated* before the dependent executor is instantiated.
Loading `A` (which depends on `B`, fresh state) does instantiate `A` — the
trace records `inst A` with `B` loaded — yet `B` is registered with
`is_active = false` and no module in the final state is active:
`load_module` loads dependencies but never activates them (activation is a
separate caller-side step, e.g. `_load_default_executors`). -/
theorem load_activation_cex :
    (load_module exAvailC9 2 {} "A").1 = some 1
    ∧ LEvent.inst "A" ["B"] ∈ (load_module exAvailC9 2 {} "A").2.events
    ∧ alookup (load_module exAvailC9 2 {} "A").2.loaded "B" =
        some { token := 0, active := false, deps := [], hasCleanup := false }
    ∧ ∀ p ∈ (load_module exAvailC9 2 {} "A").2.loaded,
        p.2.active = false := by
  refine ⟨rfl, by decide, rfl, by decide⟩

/-- The loader state of the running system: the command executor loaded
(and activated by `_load_default_executors`).  Its `Module` class — like
every module class in this repository — defines no `cleanup` method. -/
def exLoadedC8 : LSt :=
  { loaded := [("command_executor",
      { token := 0, active := true, deps := [], hasCleanup := false })],
    nextTok := 1 }

/-- C8 (code bug): `unload_module` calls `await module.cleanup()`, but no
module class in this repository defines `cleanup` (`BaseModule` offers
`deactivate`/`shutdown`; the sibling loader in base.py calls those), so the
attribute access raises `AttributeError`, the blanket `except` catches it,
and `unload_module` returns `False` leaving the module loaded — even with
`force=True` and even though nothing depends on it.  The claim's
success path (cleanup, removal, `True`) is unreachable for every module of
this repository. -/
theorem unload_cleanup_bug :
    hasDependent exLoadedC8.loaded "command_executor" = false
    ∧ unload_module exLoadedC8 "command_executor" true =
        (false, exLoadedC8)
    ∧ unload_module exLoadedC8 "command_executor" false =
        (false, exLoadedC8)
    ∧ (alookup (unload_module exLoadedC8 "command_executor" true).2.loaded
        "command_executor").isSome = true :=
  ⟨rfl, rfl, rfl, rfl⟩

end Nexus
